import Mathlib

/-!
# `pkg/filter/stringmapproperty.go`

A shallow embedding of the `StringMapProperty` leaf filter of the `filter`
package, followed by theorems about its `Matches` and `equals` methods.

Modelling conventions:

* a Go `string` is an immutable sequence of bytes (`GoString`), compared
  byte by byte;
* a Go `map[string]string` is an association list (`GoMap`); indexing it
  returns the value and the presence flag of the comma-ok form, a nil map
  being the empty list;
* a Go `error` is observed only through its `Error()` text; the nil error
  is `none`;
* `log.Errorf` is made explicit: the evaluator returns the diagnostics it
  emitted next to its boolean result.
-/

/-- Go strings: immutable byte sequences. -/
abbrev GoString := List UInt8

/-- The bytes (UTF-8) of a string literal of the source. -/
def str (s : String) : GoString := s.toUTF8.data.toList

/-- Go error values, observed through their `Error()` method only. -/
structure GoError where
  Error : GoString
deriving DecidableEq

/-- Go `map[string]string` values, as association lists. -/
abbrev GoMap := List (GoString × GoString)

/-- Keys of a Go map are unique. -/
def GoMap.WellFormed (m : GoMap) : Prop := (m.map Prod.fst).Nodup

instance (m : GoMap) : Decidable (GoMap.WellFormed m) := by
  unfold GoMap.WellFormed; infer_instance

/-- The comma-ok index expression `v, ok := m[key]`: the stored value and
`true`, or the zero value `""` and `false` when the key is missing. -/
def GoMap.index : GoMap → GoString → GoString × Bool
  | [], _ => ([], false)
  | (k, v) :: rest, key => if k = key then (v, true) else GoMap.index rest key

/-- Go standard library, `strings.HasPrefix(s, prefix)`:
`len(s) >= len(prefix) && s[0:len(prefix)] == prefix`. -/
def strings.HasPrefix (s pre : GoString) : Bool :=
  decide (s.length ≥ pre.length) && s.take pre.length == pre

/-- Modelled from the spec: the constant `kubecost.UnallocatedSuffix`, which
the source imports from a package outside `src/`; the spec gives its value as
the token `__unallocated__`. -/
def kubecost.UnallocatedSuffix : GoString := str "__unallocated__"

namespace filter

/-- The interface `StringMapPropertied`: the result of the lookup is the
pair `(map, err)` that the Go method returns. -/
class StringMapPropertied (T : Type) where
  StringMapProperty : T → GoString → GoMap × Option GoError

/-- The type `StringMapOperation`, a named string type. -/
abbrev StringMapOperation := GoString

/-- Constant `StringMapHasKey`. -/
def StringMapHasKey : StringMapOperation := str "stringmapcontains"

/-- Constant `StringMapStartsWith`. -/
def StringMapStartsWith : StringMapOperation := str "stringmapstartswith"

/-- Constant `StringMapEquals`. -/
def StringMapEquals : StringMapOperation := str "stringmapequals"

/-- The struct `StringMapProperty[T]`. -/
structure StringMapProperty (T : Type) where
  Field : GoString
  Op : StringMapOperation
  Key : GoString
  Value : GoString
deriving DecidableEq

/-- The values of interface type `Filter[T]`, by dynamic type: either a
`StringMapProperty[T]` or a node of some other kind. The other kinds
(combinators, other leaves) are declared outside `src/` and are taken as the
parameter `Other`. -/
inductive Filter (T : Type) (Other : Type) where
  | stringMapProperty (smp : StringMapProperty T)
  | other (node : Other)

/-- The byte `"` used by the rendering. -/
def quote : GoString := [0x22]

/-- Method `String`: `fmt.Sprintf` with the format
`(%s %s[%s] "%s")` applied to `Op`, `Field`, `Key`, `Value`. -/
def StringMapProperty.String {T : Type} (smp : StringMapProperty T) : GoString :=
  str "(" ++ smp.Op ++ str " " ++ smp.Field ++ str "[" ++ smp.Key ++ str "] "
    ++ quote ++ smp.Value ++ quote ++ str ")"

/-- Method `Flattened`: returns the receiver as a `Filter[T]`. -/
def StringMapProperty.Flattened {T Other : Type} (smp : StringMapProperty T) :
    Filter T Other :=
  Filter.stringMapProperty smp

/-- Method `equals`: the type assertion `that.(StringMapProperty[T])`
followed by Go struct comparison `smp == thatAC`, which compares the fields
pairwise in declaration order. -/
def StringMapProperty.equals {T Other : Type} (smp : StringMapProperty T)
    (that : Filter T Other) : Bool :=
  match that with
  | Filter.stringMapProperty thatAC =>
    smp.Field == thatAC.Field && smp.Op == thatAC.Op
      && smp.Key == thatAC.Key && smp.Value == thatAC.Value
  | Filter.other _ => false

/-- Diagnostic of the lookup-failure path. -/
def lookupDiagnostic (field : GoString) (err : GoError) : GoString :=
  str "Filter: StringMapProperty: could not retrieve field " ++ field ++ str ": "
    ++ err.Error

/-- Diagnostic of the `default` branch of the operator switch. -/
def unhandledOpDiagnostic (op : StringMapOperation) : GoString :=
  str "Filter: StringMapProperty: Unhandled filter op. This is a filter implementation error and requires immediate patching. Op: "
    ++ op

/-- Method `Matches`, with the diagnostics passed to `log.Errorf` returned
next to the result. -/
def StringMapProperty.MatchesLogged {T : Type} [StringMapPropertied T]
    (smp : StringMapProperty T) (that : T) : Bool × List GoString :=
  match StringMapPropertied.StringMapProperty that smp.Field with
  | (_, some err) => (false, [lookupDiagnostic smp.Field err])
  | (thatMap, none) =>
    match GoMap.index thatMap smp.Key with
    | (valueToCompare, keyIsPresent) =>
      if smp.Op = StringMapHasKey then
        (keyIsPresent, [])
      else if smp.Op = StringMapEquals then
        if !keyIsPresent || valueToCompare == [] then
          (smp.Value == kubecost.UnallocatedSuffix, [])
        else if valueToCompare == smp.Value then
          (true, [])
        else
          (false, [])
      else if smp.Op = StringMapStartsWith then
        if !keyIsPresent then
          (false, [])
        else
          (strings.HasPrefix valueToCompare smp.Value, [])
      else
        (false, [unhandledOpDiagnostic smp.Op])

/-- Method `Matches`: the boolean result of the call. -/
def StringMapProperty.Matches {T : Type} [StringMapPropertied T]
    (smp : StringMapProperty T) (that : T) : Bool :=
  (smp.MatchesLogged that).1

/-- Interface method `Flattened` called on a `Filter[T]` value: dynamic
dispatch on the kind of the node. The method of the other node kinds is
declared outside `src/` and is the parameter `otherFlattened`. -/
def Filter.Flattened {T Other : Type} (otherFlattened : Other → Filter T Other) :
    Filter T Other → Filter T Other
  | Filter.stringMapProperty smp => smp.Flattened
  | Filter.other node => otherFlattened node

/-- Interface method `Matches` called on a `Filter[T]` value: dynamic
dispatch on the kind of the node. The method of the other node kinds is
declared outside `src/` and is the parameter `otherMatches`. -/
def Filter.Matches {T Other : Type} [StringMapPropertied T]
    (otherMatches : Other → T → Bool) : Filter T Other → T → Bool
  | Filter.stringMapProperty smp, that => smp.Matches that
  | Filter.other node, that => otherMatches node that

/-- A sample entity: field `label` resolves to the label map and every other
field name is a lookup error. -/
structure LabelledEntity where
  labels : GoMap

instance : StringMapPropertied LabelledEntity where
  StringMapProperty e field :=
    if field = str "label" then (e.labels, none)
    else ([], some (GoError.mk (str "unknown field")))

/-- Sample predicate over `LabelledEntity`, on field `label`. -/
def labelPredicate (op key value : GoString) : StringMapProperty LabelledEntity :=
  { Field := str "label", Op := op, Key := key, Value := value }

/-! ## Auxiliary lemmas -/

theorem GoMap_index_of_absent (m : GoMap) (key : GoString)
    (h : ∀ v, (key, v) ∉ m) : GoMap.index m key = ([], false) := by
  induction m with
  | nil => rfl
  | cons kv rest ih =>
    obtain ⟨k, v⟩ := kv
    have hk : k ≠ key := by
      intro hk
      exact h v (by simp [hk])
    have hrest : ∀ w, (key, w) ∉ rest := fun w hw =>
      h w (List.mem_cons_of_mem _ hw)
    simp [GoMap.index, hk, ih hrest]

theorem GoMap_index_of_mem (m : GoMap) (key v : GoString)
    (hwf : GoMap.WellFormed m) (h : (key, v) ∈ m) :
    GoMap.index m key = (v, true) := by
  induction m with
  | nil => simp at h
  | cons kv rest ih =>
    obtain ⟨k, w⟩ := kv
    simp only [GoMap.WellFormed, List.map_cons, List.nodup_cons] at hwf
    rcases List.mem_cons.mp h with heq | hmem
    · have hk : k = key := (congrArg Prod.fst heq).symm
      have hw : w = v := (congrArg Prod.snd heq).symm
      simp [GoMap.index, hk, hw]
    · have hk : k ≠ key := by
        intro hk
        apply hwf.1
        rw [hk]
        exact List.mem_map_of_mem Prod.fst hmem
      simp only [GoMap.index, hk, if_false]
      exact ih hwf.2 hmem

theorem GoMap_index_present_iff (m : GoMap) (key : GoString) :
    (GoMap.index m key).2 = true ↔ ∃ v, (key, v) ∈ m := by
  induction m with
  | nil => simp [GoMap.index]
  | cons kv rest ih =>
    obtain ⟨k, w⟩ := kv
    by_cases hk : k = key
    · subst hk
      simp only [GoMap.index, if_true, true_iff]
      exact ⟨w, List.mem_cons_self _ _⟩
    · simp only [GoMap.index, hk, if_false, ih]
      constructor
      · rintro ⟨v, hv⟩
        exact ⟨v, List.mem_cons_of_mem _ hv⟩
      · rintro ⟨v, hv⟩
        rcases List.mem_cons.mp hv with heq | hmem
        · exact absurd (congrArg Prod.fst heq).symm hk
        · exact ⟨v, hmem⟩

theorem strings_HasPrefix_iff (s pre : GoString) :
    strings.HasPrefix s pre = true ↔ pre <+: s := by
  unfold strings.HasPrefix
  simp only [Bool.and_eq_true, decide_eq_true_eq, beq_iff_eq]
  constructor
  · rintro ⟨_, htake⟩
    refine ⟨s.drop pre.length, ?_⟩
    conv_rhs => rw [← List.take_append_drop pre.length s]
    rw [htake]
  · rintro ⟨rest, rfl⟩
    simp

theorem hasKey_ne_equals : StringMapHasKey ≠ StringMapEquals := by decide

theorem hasKey_ne_startsWith : StringMapHasKey ≠ StringMapStartsWith := by decide

theorem equals_ne_startsWith : StringMapEquals ≠ StringMapStartsWith := by decide

/-- The result of `Matches` once the lookup has succeeded with map `m`. -/
theorem Matches_of_lookup {T : Type} [StringMapPropertied T]
    (smp : StringMapProperty T) (that : T) (m : GoMap)
    (hlookup : StringMapPropertied.StringMapProperty that smp.Field = (m, none)) :
    smp.Matches that =
      if smp.Op = StringMapHasKey then (GoMap.index m smp.Key).2
      else if smp.Op = StringMapEquals then
        if !(GoMap.index m smp.Key).2 || (GoMap.index m smp.Key).1 == [] then
          smp.Value == kubecost.UnallocatedSuffix
        else if (GoMap.index m smp.Key).1 == smp.Value then true
        else false
      else if smp.Op = StringMapStartsWith then
        if !(GoMap.index m smp.Key).2 then false
        else strings.HasPrefix (GoMap.index m smp.Key).1 smp.Value
      else false := by
  unfold StringMapProperty.Matches StringMapProperty.MatchesLogged
  rw [hlookup]
  simp only
  split_ifs <;> rfl

/-- The result of `Matches` once the lookup has failed. -/
theorem Matches_of_lookup_error {T : Type} [StringMapPropertied T]
    (smp : StringMapProperty T) (that : T) (err : GoError)
    (hlookup : (StringMapPropertied.StringMapProperty that smp.Field).2 = some err) :
    smp.Matches that = false := by
  unfold StringMapProperty.Matches StringMapProperty.MatchesLogged
  rcases hres : StringMapPropertied.StringMapProperty that smp.Field with ⟨m, e⟩
  rw [hres] at hlookup
  simp only at hlookup
  subst hlookup
  rfl

/-! ## Matching: the three operators -/

/-- C1. Equals, unallocated rule: when the operator is `StringMapEquals`, the
lookup of `Field` succeeds with map `m`, and `Key` is absent from `m` or is
stored with the empty string, `Matches` returns true exactly when `Value` is
the unallocated sentinel. -/
theorem Matches_equals_unallocated {T : Type} [StringMapPropertied T]
    (smp : StringMapProperty T) (that : T) (m : GoMap)
    (hop : smp.Op = StringMapEquals)
    (hlookup : StringMapPropertied.StringMapProperty that smp.Field = (m, none))
    (hwf : GoMap.WellFormed m)
    (hkey : (∀ v, (smp.Key, v) ∉ m) ∨ (smp.Key, []) ∈ m) :
    smp.Matches that = true ↔ smp.Value = kubecost.UnallocatedSuffix := by
  rw [Matches_of_lookup smp that m hlookup, hop, if_neg hasKey_ne_equals.symm, if_pos rfl]
  rcases hkey with habsent | hempty
  · rw [GoMap_index_of_absent m smp.Key habsent]
    simp
  · rw [GoMap_index_of_mem m smp.Key [] hwf hempty]
    simp

/-- Witness of C1: the maps `{}` and `{"namespace": ""}` both match the
predicate with key `namespace` and value `__unallocated__`. -/
theorem Matches_equals_unallocated_witness :
    (labelPredicate StringMapEquals (str "namespace") (str "__unallocated__")).Matches
        (LabelledEntity.mk []) = true
      ∧ (labelPredicate StringMapEquals (str "namespace") (str "__unallocated__")).Matches
        (LabelledEntity.mk [(str "namespace", str "")]) = true :=
  ⟨(Matches_equals_unallocated
      (labelPredicate StringMapEquals (str "namespace") (str "__unallocated__"))
      (LabelledEntity.mk []) [] rfl rfl (by decide)
      (Or.inl (fun _ h => List.not_mem_nil _ h))).mpr rfl,
   (Matches_equals_unallocated
      (labelPredicate StringMapEquals (str "namespace") (str "__unallocated__"))
      (LabelledEntity.mk [(str "namespace", str "")]) [(str "namespace", str "")]
      rfl rfl (by decide) (Or.inr (by decide))).mpr rfl⟩

/-- C2. Equals, ordinary rule: when the operator is `StringMapEquals`, the
lookup of `Field` succeeds with map `m`, and `Key` is stored in `m` with a
non-empty value `v`, `Matches` returns true exactly when `v` and `Value` are
the same byte string. -/
theorem Matches_equals_ordinary {T : Type} [StringMapPropertied T]
    (smp : StringMapProperty T) (that : T) (m : GoMap) (v : GoString)
    (hop : smp.Op = StringMapEquals)
    (hlookup : StringMapPropertied.StringMapProperty that smp.Field = (m, none))
    (hwf : GoMap.WellFormed m)
    (hkey : (smp.Key, v) ∈ m) (hv : v ≠ []) :
    smp.Matches that = true ↔ v = smp.Value := by
  rw [Matches_of_lookup smp that m hlookup, hop, if_neg hasKey_ne_equals.symm, if_pos rfl,
    GoMap_index_of_mem m smp.Key v hwf hkey]
  simp [hv]

/-- Witness of C2: `{"namespace": "kube-system"}` does not match the
sentinel, `{"app": "frontend"}` matches `frontend` and not `backend`, and
the comparison is case-sensitive. -/
theorem Matches_equals_ordinary_witness :
    (labelPredicate StringMapEquals (str "namespace") (str "__unallocated__")).Matches
        (LabelledEntity.mk [(str "namespace", str "kube-system")]) = false
      ∧ (labelPredicate StringMapEquals (str "app") (str "frontend")).Matches
        (LabelledEntity.mk [(str "app", str "frontend")]) = true
      ∧ (labelPredicate StringMapEquals (str "app") (str "backend")).Matches
        (LabelledEntity.mk [(str "app", str "frontend")]) = false
      ∧ (labelPredicate StringMapEquals (str "app") (str "Frontend")).Matches
        (LabelledEntity.mk [(str "app", str "frontend")]) = false :=
  ⟨Bool.eq_false_iff.mpr (fun h => absurd
      ((Matches_equals_ordinary
        (labelPredicate StringMapEquals (str "namespace") (str "__unallocated__"))
        (LabelledEntity.mk [(str "namespace", str "kube-system")])
        [(str "namespace", str "kube-system")] (str "kube-system")
        rfl rfl (by decide) (by decide) (by decide)).mp h) (by decide)),
   (Matches_equals_ordinary
      (labelPredicate StringMapEquals (str "app") (str "frontend"))
      (LabelledEntity.mk [(str "app", str "frontend")])
      [(str "app", str "frontend")] (str "frontend")
      rfl rfl (by decide) (by decide) (by decide)).mpr rfl,
   Bool.eq_false_iff.mpr (fun h => absurd
      ((Matches_equals_ordinary
        (labelPredicate StringMapEquals (str "app") (str "backend"))
        (LabelledEntity.mk [(str "app", str "frontend")])
        [(str "app", str "frontend")] (str "frontend")
        rfl rfl (by decide) (by decide) (by decide)).mp h) (by decide)),
   Bool.eq_false_iff.mpr (fun h => absurd
      ((Matches_equals_ordinary
        (labelPredicate StringMapEquals (str "app") (str "Frontend"))
        (LabelledEntity.mk [(str "app", str "frontend")])
        [(str "app", str "frontend")] (str "frontend")
        rfl rfl (by decide) (by decide) (by decide)).mp h) (by decide))⟩

/-- C3. HasKey: when the operator is `StringMapHasKey` and the lookup of
`Field` succeeds with map `m`, `Matches` returns true exactly when `Key` is
stored in `m`, whatever the stored value and whatever `Value` is. -/
theorem Matches_hasKey {T : Type} [StringMapPropertied T]
    (smp : StringMapProperty T) (that : T) (m : GoMap)
    (hop : smp.Op = StringMapHasKey)
    (hlookup : StringMapPropertied.StringMapProperty that smp.Field = (m, none)) :
    smp.Matches that = true ↔ ∃ v, (smp.Key, v) ∈ m := by
  rw [Matches_of_lookup smp that m hlookup, hop, if_pos rfl]
  exact GoMap_index_present_iff m smp.Key

/-- Witness of C3: `{"app": ""}` has key `app`, `{}` has not. -/
theorem Matches_hasKey_witness :
    (labelPredicate StringMapHasKey (str "app") (str "anything")).Matches
        (LabelledEntity.mk [(str "app", str "")]) = true
      ∧ (labelPredicate StringMapHasKey (str "app") (str "anything")).Matches
        (LabelledEntity.mk []) = false :=
  ⟨(Matches_hasKey (labelPredicate StringMapHasKey (str "app") (str "anything"))
      (LabelledEntity.mk [(str "app", str "")]) [(str "app", str "")] rfl rfl).mpr
      ⟨str "", by decide⟩,
   Bool.eq_false_iff.mpr (fun h =>
     Exists.elim
      ((Matches_hasKey (labelPredicate StringMapHasKey (str "app") (str "anything"))
        (LabelledEntity.mk []) [] rfl rfl).mp h)
      (fun _ hv => List.not_mem_nil _ hv))⟩

/-- C4. StartsWith on a present key: when the operator is
`StringMapStartsWith`, the lookup of `Field` succeeds with map `m`, and `Key`
is stored in `m` with value `v`, `Matches` returns true exactly when `v`
begins with the bytes of `Value` (`Value <+: v`, that is `Value ++ rest = v`
for some `rest`). -/
theorem Matches_startsWith_present {T : Type} [StringMapPropertied T]
    (smp : StringMapProperty T) (that : T) (m : GoMap) (v : GoString)
    (hop : smp.Op = StringMapStartsWith)
    (hlookup : StringMapPropertied.StringMapProperty that smp.Field = (m, none))
    (hwf : GoMap.WellFormed m)
    (hkey : (smp.Key, v) ∈ m) :
    smp.Matches that = true ↔ smp.Value <+: v := by
  rw [Matches_of_lookup smp that m hlookup, hop, if_neg hasKey_ne_startsWith.symm,
    if_neg equals_ne_startsWith.symm, if_pos rfl, GoMap_index_of_mem m smp.Key v hwf hkey]
  simp only [Bool.not_true, Bool.false_eq_true, if_false]
  exact strings_HasPrefix_iff v smp.Value

/-- Witness of C4: on `{"app": "frontend-worker"}` the prefix `front`
matches, the prefixes `back` and `Front` do not. -/
theorem Matches_startsWith_present_witness :
    (labelPredicate StringMapStartsWith (str "app") (str "front")).Matches
        (LabelledEntity.mk [(str "app", str "frontend-worker")]) = true
      ∧ (labelPredicate StringMapStartsWith (str "app") (str "back")).Matches
        (LabelledEntity.mk [(str "app", str "frontend-worker")]) = false
      ∧ (labelPredicate StringMapStartsWith (str "app") (str "Front")).Matches
        (LabelledEntity.mk [(str "app", str "frontend-worker")]) = false :=
  ⟨(Matches_startsWith_present
      (labelPredicate StringMapStartsWith (str "app") (str "front"))
      (LabelledEntity.mk [(str "app", str "frontend-worker")])
      [(str "app", str "frontend-worker")] (str "frontend-worker")
      rfl rfl (by decide) (by decide)).mpr ⟨str "end-worker", by decide⟩,
   Bool.eq_false_iff.mpr (fun h => absurd
      ((Matches_startsWith_present
        (labelPredicate StringMapStartsWith (str "app") (str "back"))
        (LabelledEntity.mk [(str "app", str "frontend-worker")])
        [(str "app", str "frontend-worker")] (str "frontend-worker")
        rfl rfl (by decide) (by decide)).mp h)
      (show ¬ (str "back" <+: str "frontend-worker") by decide)),
   Bool.eq_false_iff.mpr (fun h => absurd
      ((Matches_startsWith_present
        (labelPredicate StringMapStartsWith (str "app") (str "Front"))
        (LabelledEntity.mk [(str "app", str "frontend-worker")])
        [(str "app", str "frontend-worker")] (str "frontend-worker")
        rfl rfl (by decide) (by decide)).mp h)
      (show ¬ (str "Front" <+: str "frontend-worker") by decide))⟩

/-- C5. StartsWith on an absent key: when the operator is
`StringMapStartsWith` and the lookup of `Field` succeeds with a map that does
not store `Key`, `Matches` returns false for every `Value`. -/
theorem Matches_startsWith_absent {T : Type} [StringMapPropertied T]
    (smp : StringMapProperty T) (that : T) (m : GoMap)
    (hop : smp.Op = StringMapStartsWith)
    (hlookup : StringMapPropertied.StringMapProperty that smp.Field = (m, none))
    (hkey : ∀ v, (smp.Key, v) ∉ m) :
    smp.Matches that = false := by
  rw [Matches_of_lookup smp that m hlookup, hop, if_neg hasKey_ne_startsWith.symm,
    if_neg equals_ne_startsWith.symm, if_pos rfl, GoMap_index_of_absent m smp.Key hkey]
  rfl

/-- Witness of C5: on `{}` the key `team` is absent and neither the empty
prefix nor the sentinel matches. -/
theorem Matches_startsWith_absent_witness :
    (labelPredicate StringMapStartsWith (str "team") (str "")).Matches
        (LabelledEntity.mk []) = false
      ∧ (labelPredicate StringMapStartsWith (str "team") kubecost.UnallocatedSuffix).Matches
        (LabelledEntity.mk [(str "app", str "frontend")]) = false :=
  ⟨Matches_startsWith_absent (labelPredicate StringMapStartsWith (str "team") (str ""))
      (LabelledEntity.mk []) [] rfl rfl (fun _ h => List.not_mem_nil _ h),
   Matches_startsWith_absent
      (labelPredicate StringMapStartsWith (str "team") kubecost.UnallocatedSuffix)
      (LabelledEntity.mk [(str "app", str "frontend")]) [(str "app", str "frontend")]
      rfl rfl (fun _ h =>
        (show str "team" ≠ str "app" by decide)
          (congrArg Prod.fst (List.mem_singleton.mp h)))⟩

/-- Counterexample to C6 as stated: with operator `StringMapStartsWith`, the
map `{"app": ""}` (key present with the empty string) and the empty `Value`,
`Matches` returns true. -/
theorem Matches_startsWith_unallocated_counterexample :
    (labelPredicate StringMapStartsWith (str "app") (str "")).Op = StringMapStartsWith
      ∧ StringMapPropertied.StringMapProperty (LabelledEntity.mk [(str "app", str "")])
          (labelPredicate StringMapStartsWith (str "app") (str "")).Field
        = ([(str "app", str "")], none)
      ∧ GoMap.WellFormed [(str "app", str "")]
      ∧ ((labelPredicate StringMapStartsWith (str "app") (str "")).Key, [])
          ∈ [(str "app", str "")]
      ∧ (labelPredicate StringMapStartsWith (str "app") (str "")).Matches
          (LabelledEntity.mk [(str "app", str "")]) = true := by
  decide

/-- C6, amended. With operator `StringMapStartsWith` and a lookup of `Field`
that succeeds with map `m`: if `Key` is absent from `m`, `Matches` returns
false for every `Value`; if `Key` is stored with the empty string, `Matches`
returns true exactly when `Value` is itself the empty string, hence false
for every non-empty `Value`. -/
theorem Matches_startsWith_unallocated {T : Type} [StringMapPropertied T]
    (smp : StringMapProperty T) (that : T) (m : GoMap)
    (hop : smp.Op = StringMapStartsWith)
    (hlookup : StringMapPropertied.StringMapProperty that smp.Field = (m, none))
    (hwf : GoMap.WellFormed m) :
    ((∀ v, (smp.Key, v) ∉ m) → smp.Matches that = false)
      ∧ ((smp.Key, []) ∈ m → (smp.Matches that = true ↔ smp.Value = [])) := by
  have hm := Matches_of_lookup smp that m hlookup
  rw [hop, if_neg hasKey_ne_startsWith.symm, if_neg equals_ne_startsWith.symm,
    if_pos rfl] at hm
  constructor
  · intro habsent
    rw [hm, GoMap_index_of_absent m smp.Key habsent]
    rfl
  · intro hempty
    rw [hm, GoMap_index_of_mem m smp.Key [] hwf hempty]
    simp only [Bool.not_true, Bool.false_eq_true, if_false]
    rw [strings_HasPrefix_iff]
    exact List.prefix_nil

/-- Witness of C6, amended: on `{}` the sentinel prefix does not match; on
`{"app": ""}` the prefix `front` does not match. -/
theorem Matches_startsWith_unallocated_witness :
    (labelPredicate StringMapStartsWith (str "app") kubecost.UnallocatedSuffix).Matches
        (LabelledEntity.mk []) = false
      ∧ (labelPredicate StringMapStartsWith (str "app") (str "front")).Matches
        (LabelledEntity.mk [(str "app", str "")]) = false :=
  ⟨(Matches_startsWith_unallocated
      (labelPredicate StringMapStartsWith (str "app") kubecost.UnallocatedSuffix)
      (LabelledEntity.mk []) [] rfl rfl (by decide)).1 (fun _ h => List.not_mem_nil _ h),
   Bool.eq_false_iff.mpr (fun h => absurd
      (((Matches_startsWith_unallocated
        (labelPredicate StringMapStartsWith (str "app") (str "front"))
        (LabelledEntity.mk [(str "app", str "")]) [(str "app", str "")]
        rfl rfl (by decide)).2 (by decide)).mp h) (by decide))⟩

/-! ## Matching: failure paths -/

/-- C7. Fail-closed on lookup failure: whenever the lookup of `Field` returns
a non-nil error, `Matches` returns false, whatever the operator, key, value
and returned map are. `Matches` is a total function into `Bool`, so no error
value reaches the caller. -/
theorem Matches_lookup_failure {T : Type} [StringMapPropertied T]
    (smp : StringMapProperty T) (that : T) (m : GoMap) (err : GoError)
    (hlookup : StringMapPropertied.StringMapProperty that smp.Field = (m, some err)) :
    smp.Matches that = false :=
  Matches_of_lookup_error smp that err (by rw [hlookup])

/-- Witness of C7: `LabelledEntity` fails the lookup of field `annotation`;
neither a recognised nor an unrecognised operator matches, although the key
is stored in the label map. -/
theorem Matches_lookup_failure_witness :
    (StringMapProperty.mk (str "annotation") StringMapHasKey (str "app") (str "")).Matches
        (LabelledEntity.mk [(str "app", str "frontend")]) = false
      ∧ (StringMapProperty.mk (str "annotation") (str "bogus") (str "app") (str "")).Matches
        (LabelledEntity.mk [(str "app", str "frontend")]) = false :=
  ⟨Matches_lookup_failure
      (StringMapProperty.mk (str "annotation") StringMapHasKey (str "app") (str ""))
      (LabelledEntity.mk [(str "app", str "frontend")]) []
      (GoError.mk (str "unknown field")) rfl,
   Matches_lookup_failure
      (StringMapProperty.mk (str "annotation") (str "bogus") (str "app") (str ""))
      (LabelledEntity.mk [(str "app", str "frontend")]) []
      (GoError.mk (str "unknown field")) rfl⟩

/-- C8. Unrecognised operator: when `Op` is none of `stringmapcontains`,
`stringmapequals`, `stringmapstartswith`, `Matches` returns false for every
entity, whether its lookup fails or succeeds and whatever the map holds. -/
theorem Matches_unrecognised_op {T : Type} [StringMapPropertied T]
    (smp : StringMapProperty T) (that : T)
    (hcontains : smp.Op ≠ str "stringmapcontains")
    (hequals : smp.Op ≠ str "stringmapequals")
    (hstartswith : smp.Op ≠ str "stringmapstartswith") :
    smp.Matches that = false := by
  rcases hres : StringMapPropertied.StringMapProperty that smp.Field with ⟨m, _ | err⟩
  · have h1 : smp.Op ≠ StringMapHasKey := hcontains
    have h2 : smp.Op ≠ StringMapEquals := hequals
    have h3 : smp.Op ≠ StringMapStartsWith := hstartswith
    rw [Matches_of_lookup smp that m hres, if_neg h1, if_neg h2, if_neg h3]
  · exact Matches_of_lookup_error smp that err (by rw [hres])

/-- Witness of C8: the operator `stringmapendswith` matches neither an entity
that stores the key with the very value asked for, nor one whose lookup
fails. -/
theorem Matches_unrecognised_op_witness :
    (labelPredicate (str "stringmapendswith") (str "app") (str "frontend")).Matches
        (LabelledEntity.mk [(str "app", str "frontend")]) = false
      ∧ (StringMapProperty.mk (str "annotation") (str "stringmapendswith") (str "app")
          (str "frontend")).Matches
        (LabelledEntity.mk [(str "app", str "frontend")]) = false :=
  ⟨Matches_unrecognised_op
      (labelPredicate (str "stringmapendswith") (str "app") (str "frontend"))
      (LabelledEntity.mk [(str "app", str "frontend")])
      (by decide) (by decide) (by decide),
   Matches_unrecognised_op
      (StringMapProperty.mk (str "annotation") (str "stringmapendswith") (str "app")
        (str "frontend"))
      (LabelledEntity.mk [(str "app", str "frontend")])
      (by decide) (by decide) (by decide)⟩

/-! ## Structural equality -/

/-- C9. Structural equality: `P.equals(Q)` is true exactly when the four
fields of `P` and `Q` are pairwise the same byte strings; hence `equals` is
reflexive and symmetric, and it is false as soon as one field differs. -/
theorem equals_structural {T Other : Type} (P Q : StringMapProperty T) :
    (P.equals (Filter.stringMapProperty Q : Filter T Other) = true
        ↔ P.Field = Q.Field ∧ P.Op = Q.Op ∧ P.Key = Q.Key ∧ P.Value = Q.Value)
      ∧ P.equals (Filter.stringMapProperty P : Filter T Other) = true
      ∧ P.equals (Filter.stringMapProperty Q : Filter T Other)
          = Q.equals (Filter.stringMapProperty P : Filter T Other)
      ∧ ((P.Field ≠ Q.Field ∨ P.Op ≠ Q.Op ∨ P.Key ≠ Q.Key ∨ P.Value ≠ Q.Value) →
          P.equals (Filter.stringMapProperty Q : Filter T Other) = false) := by
  have hiff : ∀ A B : StringMapProperty T,
      A.equals (Filter.stringMapProperty B : Filter T Other) = true
        ↔ A.Field = B.Field ∧ A.Op = B.Op ∧ A.Key = B.Key ∧ A.Value = B.Value := by
    intro A B
    simp only [StringMapProperty.equals, Bool.and_eq_true, beq_iff_eq, and_assoc]
  refine ⟨hiff P Q, (hiff P P).mpr ⟨rfl, rfl, rfl, rfl⟩, ?_, ?_⟩
  · rw [Bool.eq_iff_iff, hiff P Q, hiff Q P]
    constructor <;> rintro ⟨h1, h2, h3, h4⟩ <;> exact ⟨h1.symm, h2.symm, h3.symm, h4.symm⟩
  · intro hne
    rw [Bool.eq_false_iff]
    intro heq
    obtain ⟨h1, h2, h3, h4⟩ := (hiff P Q).mp heq
    rcases hne with h | h | h | h
    · exact h h1
    · exact h h2
    · exact h h3
    · exact h h4

/-- Witness of C9: two predicates that differ only in the case of one letter
of `Value` are not equal, in either order. -/
theorem equals_structural_witness :
    (labelPredicate StringMapEquals (str "app") (str "frontend")).equals
        (Filter.stringMapProperty
          (labelPredicate StringMapEquals (str "app") (str "Frontend")) :
          Filter LabelledEntity Unit) = false
      ∧ (labelPredicate StringMapEquals (str "app") (str "Frontend")).equals
        (Filter.stringMapProperty
          (labelPredicate StringMapEquals (str "app") (str "frontend")) :
          Filter LabelledEntity Unit) = false :=
  have h := @equals_structural LabelledEntity Unit
    (labelPredicate StringMapEquals (str "app") (str "frontend"))
    (labelPredicate StringMapEquals (str "app") (str "Frontend"))
  have hfalse := h.2.2.2 (Or.inr (Or.inr (Or.inr (by decide))))
  ⟨hfalse, h.2.2.1 ▸ hfalse⟩

/-- C10. Equality against other node kinds: when the node `N` is not a
`StringMapProperty`, `P.equals(N)` is false. -/
theorem equals_other_kind {T Other : Type} (P : StringMapProperty T) (N : Filter T Other)
    (hkind : ∀ Q : StringMapProperty T, N ≠ Filter.stringMapProperty Q) :
    P.equals N = false := by
  cases N with
  | stringMapProperty Q => exact absurd rfl (hkind Q)
  | other node => rfl

/-- Witness of C10: a node of another kind that carries the same four fields
as `P` is still not equal to `P`. -/
theorem equals_other_kind_witness :
    (labelPredicate StringMapEquals (str "app") (str "frontend")).equals
        (Filter.other (labelPredicate StringMapEquals (str "app") (str "frontend")) :
          Filter LabelledEntity (StringMapProperty LabelledEntity)) = false :=
  equals_other_kind (labelPredicate StringMapEquals (str "app") (str "frontend"))
    (Filter.other (labelPredicate StringMapEquals (str "app") (str "frontend")))
    (fun _ h => Filter.noConfusion h)

/-! ## Tree protocol: flattening and rendering -/

/-- C11. Flattening is the identity on leaves: `P.Flattened()` is the node
holding `P` itself, with its four fields unchanged; `P` equals its flattened
form, flattening the flattened form again changes nothing, and the flattened
form matches exactly the entities that `P` matches. -/
theorem Flattened_identity {T Other : Type} [StringMapPropertied T]
    (P : StringMapProperty T) (otherFlattened : Other → Filter T Other)
    (otherMatches : Other → T → Bool) :
    (P.Flattened : Filter T Other) = Filter.stringMapProperty P
      ∧ (∃ Q : StringMapProperty T, (P.Flattened : Filter T Other) = Filter.stringMapProperty Q
          ∧ Q.Field = P.Field ∧ Q.Op = P.Op ∧ Q.Key = P.Key ∧ Q.Value = P.Value)
      ∧ P.equals (P.Flattened : Filter T Other) = true
      ∧ Filter.Flattened otherFlattened (P.Flattened : Filter T Other) = P.Flattened
      ∧ ∀ that : T, Filter.Matches otherMatches (P.Flattened : Filter T Other) that
          = P.Matches that := by
  refine ⟨rfl, ⟨P, rfl, rfl, rfl, rfl, rfl⟩, ?_, rfl, fun _ => rfl⟩
  simp [StringMapProperty.Flattened, StringMapProperty.equals]

/-- C12. Canonical rendering: `P.String()` is the concatenation of `(`, `Op`,
a space, `Field`, `[`, `Key`, `] "`, `Value` and `")`, the four fields being
copied byte for byte; predicates that are structurally equal have the same
rendering. -/
theorem String_rendering {T Other : Type} (P Q : StringMapProperty T) :
    P.String = str "(" ++ (P.Op ++ (str " " ++ (P.Field ++ (str "[" ++ (P.Key
        ++ (str "] \x22" ++ (P.Value ++ str "\x22)")))))))
      ∧ (P.equals (Filter.stringMapProperty Q : Filter T Other) = true →
          P.String = Q.String) := by
  constructor
  · simp only [StringMapProperty.String, List.append_assoc]
    rfl
  · intro heq
    simp only [StringMapProperty.equals, Bool.and_eq_true, beq_iff_eq] at heq
    obtain ⟨⟨⟨h1, h2⟩, h3⟩, h4⟩ := heq
    simp only [StringMapProperty.String, h1, h2, h3, h4]

/-- Witness of C12: the predicate with operator `stringmapequals`, field
`label`, key `app` and value `frontend` renders as
`(stringmapequals label[app] "frontend")`, and so does an equal predicate. -/
theorem String_rendering_witness :
    (labelPredicate (str "stringmapequals") (str "app") (str "frontend")).String
        = str "(stringmapequals label[app] \x22frontend\x22)"
      ∧ (labelPredicate (str "stringmapequals") (str "app") (str "frontend")).String
        = (StringMapProperty.mk (str "label") StringMapEquals (str "app")
            (str "frontend") : StringMapProperty LabelledEntity).String :=
  ⟨((@String_rendering LabelledEntity Unit
      (labelPredicate (str "stringmapequals") (str "app") (str "frontend"))
      (labelPredicate (str "stringmapequals") (str "app") (str "frontend"))).1).trans
      (by decide),
   (@String_rendering LabelledEntity Unit
      (labelPredicate (str "stringmapequals") (str "app") (str "frontend"))
      (StringMapProperty.mk (str "label") StringMapEquals (str "app") (str "frontend"))).2
      (by decide)⟩

/-! ## Matching: purity and diagnostics -/

/-- The call of `Matches` once the lookup has failed: result and log. -/
theorem MatchesLogged_of_lookup_error {T : Type} [StringMapPropertied T]
    (smp : StringMapProperty T) (that : T) (err : GoError)
    (hlookup : (StringMapPropertied.StringMapProperty that smp.Field).2 = some err) :
    smp.MatchesLogged that = (false, [lookupDiagnostic smp.Field err]) := by
  unfold StringMapProperty.MatchesLogged
  rcases hres : StringMapPropertied.StringMapProperty that smp.Field with ⟨m, e⟩
  rw [hres] at hlookup
  simp only at hlookup
  subst hlookup
  rfl

/-- The log of a call of `Matches` once the lookup has succeeded. -/
theorem MatchesLogged_log_of_lookup {T : Type} [StringMapPropertied T]
    (smp : StringMapProperty T) (that : T) (m : GoMap)
    (hlookup : StringMapPropertied.StringMapProperty that smp.Field = (m, none)) :
    (smp.MatchesLogged that).2 =
      if smp.Op = StringMapHasKey ∨ smp.Op = StringMapEquals ∨ smp.Op = StringMapStartsWith
      then [] else [unhandledOpDiagnostic smp.Op] := by
  unfold StringMapProperty.MatchesLogged
  rw [hlookup]
  simp only
  split_ifs <;> simp_all

/-- C13. Purity of `Matches`: two entities whose lookups of `Field` give the
same result (both an error, or both a map with the same content) get the same
boolean from `P.Matches`; the result depends on the four fields of `P` and on
the lookup result only. -/
theorem Matches_pure {T : Type} [StringMapPropertied T]
    (P : StringMapProperty T) (e1 e2 : T)
    (hsame :
      (∃ err1 err2, (StringMapPropertied.StringMapProperty e1 P.Field).2 = some err1
          ∧ (StringMapPropertied.StringMapProperty e2 P.Field).2 = some err2)
      ∨ (∃ m1 m2, StringMapPropertied.StringMapProperty e1 P.Field = (m1, none)
          ∧ StringMapPropertied.StringMapProperty e2 P.Field = (m2, none)
          ∧ ∀ key, GoMap.index m1 key = GoMap.index m2 key)) :
    P.Matches e1 = P.Matches e2 := by
  rcases hsame with ⟨err1, err2, h1, h2⟩ | ⟨m1, m2, h1, h2, hmaps⟩
  · rw [Matches_of_lookup_error P e1 err1 h1, Matches_of_lookup_error P e2 err2 h2]
  · rw [Matches_of_lookup P e1 m1 h1, Matches_of_lookup P e2 m2 h2, hmaps P.Key]

/-- Witness of C13: two entities holding the same label map with its entries
in a different order, and two entities whose lookups both fail. -/
theorem Matches_pure_witness :
    (labelPredicate StringMapEquals (str "app") (str "frontend")).Matches
        (LabelledEntity.mk [(str "app", str "frontend"), (str "team", str "core")])
      = (labelPredicate StringMapEquals (str "app") (str "frontend")).Matches
        (LabelledEntity.mk [(str "team", str "core"), (str "app", str "frontend")])
      ∧ (StringMapProperty.mk (str "annotation") StringMapHasKey (str "app") (str "")).Matches
        (LabelledEntity.mk [(str "app", str "frontend")])
      = (StringMapProperty.mk (str "annotation") StringMapHasKey (str "app") (str "")).Matches
        (LabelledEntity.mk []) :=
  ⟨Matches_pure (labelPredicate StringMapEquals (str "app") (str "frontend"))
      (LabelledEntity.mk [(str "app", str "frontend"), (str "team", str "core")])
      (LabelledEntity.mk [(str "team", str "core"), (str "app", str "frontend")])
      (Or.inr ⟨[(str "app", str "frontend"), (str "team", str "core")],
        [(str "team", str "core"), (str "app", str "frontend")], rfl, rfl, by
          intro key
          simp only [GoMap.index]
          split_ifs with h1 h2 h2
          · exact absurd (h1.trans h2.symm) (by decide)
          · rfl
          · rfl
          · rfl⟩),
   Matches_pure (StringMapProperty.mk (str "annotation") StringMapHasKey (str "app") (str ""))
      (LabelledEntity.mk [(str "app", str "frontend")]) (LabelledEntity.mk [])
      (Or.inl ⟨GoError.mk (str "unknown field"), GoError.mk (str "unknown field"),
        rfl, rfl⟩)⟩

/-- C14. Diagnostic count, the log being the second component of
`MatchesLogged`: a call emits exactly one diagnostic when the lookup of
`Field` fails (the lookup diagnostic, also when the operator is unrecognised)
or when the lookup succeeds and `Op` is none of the three tags (the
unhandled-operator diagnostic); it emits none when the lookup succeeds and
`Op` is recognised; the boolean is the one `Matches` returns. -/
theorem MatchesLogged_diagnostics {T : Type} [StringMapPropertied T]
    (smp : StringMapProperty T) (that : T) :
    (((StringMapPropertied.StringMapProperty that smp.Field).2 ≠ none
          ∨ (smp.Op ≠ str "stringmapcontains" ∧ smp.Op ≠ str "stringmapequals"
              ∧ smp.Op ≠ str "stringmapstartswith")) →
        (smp.MatchesLogged that).2.length = 1)
      ∧ (∀ err, (StringMapPropertied.StringMapProperty that smp.Field).2 = some err →
          (smp.MatchesLogged that).2 = [lookupDiagnostic smp.Field err])
      ∧ ((StringMapPropertied.StringMapProperty that smp.Field).2 = none →
          (smp.Op ≠ str "stringmapcontains" ∧ smp.Op ≠ str "stringmapequals"
              ∧ smp.Op ≠ str "stringmapstartswith") →
          (smp.MatchesLogged that).2 = [unhandledOpDiagnostic smp.Op])
      ∧ ((StringMapPropertied.StringMapProperty that smp.Field).2 = none →
          (smp.Op = str "stringmapcontains" ∨ smp.Op = str "stringmapequals"
              ∨ smp.Op = str "stringmapstartswith") →
          (smp.MatchesLogged that).2 = [])
      ∧ (smp.MatchesLogged that).1 = smp.Matches that := by
  have hlog : ∀ m, StringMapPropertied.StringMapProperty that smp.Field = (m, none) →
      (smp.MatchesLogged that).2 =
        if smp.Op = str "stringmapcontains" ∨ smp.Op = str "stringmapequals"
            ∨ smp.Op = str "stringmapstartswith"
        then [] else [unhandledOpDiagnostic smp.Op] :=
    fun m hm => MatchesLogged_log_of_lookup smp that m hm
  rcases hres : StringMapPropertied.StringMapProperty that smp.Field with ⟨m, _ | err⟩
  · refine ⟨?_, ?_, ?_, ?_, rfl⟩
    · rintro (hfail | ⟨h1, h2, h3⟩)
      · exact absurd rfl hfail
      · rw [hlog m hres, if_neg (by simp [h1, h2, h3])]
        rfl
    · intro err herr
      exact absurd herr (by simp)
    · rintro - ⟨h1, h2, h3⟩
      rw [hlog m hres, if_neg (by simp [h1, h2, h3])]
    · intro _ hop
      rw [hlog m hres, if_pos hop]
  · have hlogged := MatchesLogged_of_lookup_error smp that err (by rw [hres])
    refine ⟨?_, ?_, ?_, ?_, rfl⟩
    · intro _
      rw [hlogged]
      rfl
    · intro err2 herr
      simp only [Option.some.injEq] at herr
      rw [hlogged, herr]
    · intro hnone
      exact absurd hnone (by simp)
    · intro hnone
      exact absurd hnone (by simp)

/-- Witness of C14: an unrecognised operator on a failing lookup logs one
diagnostic, that of the lookup; the same operator on a successful lookup logs
one diagnostic, that of the operator; a recognised operator on a successful
lookup logs nothing. -/
theorem MatchesLogged_diagnostics_witness :
    ((StringMapProperty.mk (str "annotation") (str "bogus") (str "app") (str "")).MatchesLogged
        (LabelledEntity.mk [])).2
        = [lookupDiagnostic (str "annotation") (GoError.mk (str "unknown field"))]
      ∧ ((labelPredicate (str "bogus") (str "app") (str "")).MatchesLogged
        (LabelledEntity.mk [])).2.length = 1
      ∧ ((labelPredicate (str "bogus") (str "app") (str "")).MatchesLogged
        (LabelledEntity.mk [])).2 = [unhandledOpDiagnostic (str "bogus")]
      ∧ ((labelPredicate StringMapHasKey (str "app") (str "")).MatchesLogged
        (LabelledEntity.mk [])).2 = [] :=
  ⟨(MatchesLogged_diagnostics
      (StringMapProperty.mk (str "annotation") (str "bogus") (str "app") (str ""))
      (LabelledEntity.mk [])).2.1 (GoError.mk (str "unknown field")) rfl,
   (MatchesLogged_diagnostics (labelPredicate (str "bogus") (str "app") (str ""))
      (LabelledEntity.mk [])).1 (Or.inr ⟨by decide, by decide, by decide⟩),
   (MatchesLogged_diagnostics (labelPredicate (str "bogus") (str "app") (str ""))
      (LabelledEntity.mk [])).2.2.1 rfl ⟨by decide, by decide, by decide⟩,
   (MatchesLogged_diagnostics (labelPredicate StringMapHasKey (str "app") (str ""))
      (LabelledEntity.mk [])).2.2.2.1 rfl (Or.inl rfl)⟩

/-! ## Matching: relations between the operators -/

/-- C15. An Equals predicate whose `Value` is the empty string matches no
entity, whether the lookup fails or succeeds and whatever the map holds. -/
theorem Matches_equals_empty_value {T : Type} [StringMapPropertied T]
    (smp : StringMapProperty T) (that : T)
    (hop : smp.Op = StringMapEquals) (hvalue : smp.Value = []) :
    smp.Matches that = false := by
  rcases hres : StringMapPropertied.StringMapProperty that smp.Field with ⟨m, _ | err⟩
  · rw [Matches_of_lookup smp that m hres, hop, if_neg hasKey_ne_equals.symm, if_pos rfl,
      hvalue]
    have hsentinel : (([] : GoString) == kubecost.UnallocatedSuffix) = false := by decide
    rcases hidx : GoMap.index m smp.Key with ⟨v, present⟩
    cases present <;> cases v <;> simp [hsentinel]
  · exact Matches_of_lookup_error smp that err (by rw [hres])

/-- Witness of C15: the empty `Value` matches neither an absent key, nor a
key stored with the empty string, nor a key stored with a non-empty value,
nor an entity whose lookup fails. -/
theorem Matches_equals_empty_value_witness :
    (labelPredicate StringMapEquals (str "app") (str "")).Matches
        (LabelledEntity.mk []) = false
      ∧ (labelPredicate StringMapEquals (str "app") (str "")).Matches
        (LabelledEntity.mk [(str "app", str "")]) = false
      ∧ (labelPredicate StringMapEquals (str "app") (str "")).Matches
        (LabelledEntity.mk [(str "app", str "frontend")]) = false
      ∧ (StringMapProperty.mk (str "annotation") StringMapEquals (str "app") (str "")).Matches
        (LabelledEntity.mk [(str "app", str "")]) = false :=
  ⟨Matches_equals_empty_value (labelPredicate StringMapEquals (str "app") (str ""))
      (LabelledEntity.mk []) rfl rfl,
   Matches_equals_empty_value (labelPredicate StringMapEquals (str "app") (str ""))
      (LabelledEntity.mk [(str "app", str "")]) rfl rfl,
   Matches_equals_empty_value (labelPredicate StringMapEquals (str "app") (str ""))
      (LabelledEntity.mk [(str "app", str "frontend")]) rfl rfl,
   Matches_equals_empty_value
      (StringMapProperty.mk (str "annotation") StringMapEquals (str "app") (str ""))
      (LabelledEntity.mk [(str "app", str "")]) rfl rfl⟩

/-- C16. StartsWith with the empty prefix is HasKey: for every `Field`,
`Key` and entity, the StartsWith predicate with the empty `Value` and the
HasKey predicate with any `Value` get the same result from `Matches`. -/
theorem Matches_startsWith_empty_eq_hasKey {T : Type} [StringMapPropertied T]
    (field key value : GoString) (that : T) :
    (StringMapProperty.mk field StringMapStartsWith key [] : StringMapProperty T).Matches that
      = (StringMapProperty.mk field StringMapHasKey key value : StringMapProperty T).Matches
          that := by
  rcases hres : StringMapPropertied.StringMapProperty that field with ⟨m, _ | err⟩
  · rw [Matches_of_lookup _ that m hres, Matches_of_lookup _ that m hres]
    simp only [if_neg hasKey_ne_startsWith.symm, if_neg equals_ne_startsWith.symm, if_true]
    have hemptyPre : ∀ v : GoString, strings.HasPrefix v [] = true := fun v =>
      (strings_HasPrefix_iff v []).mpr (List.nil_prefix)
    cases hpresent : (GoMap.index m key).2 <;> simp [hemptyPre]
  · rw [Matches_of_lookup_error _ that err (by rw [hres]),
      Matches_of_lookup_error _ that err (by rw [hres])]

/-- C17. Outside the sentinel, Equals is the strongest operator: when `Value`
is not the unallocated sentinel and the Equals predicate matches, the
StartsWith predicate with the same `Field`, `Key`, `Value` and the HasKey
predicate with the same `Field`, `Key` match; for every `Value`, when the
StartsWith predicate matches, the HasKey predicate matches. -/
theorem Matches_operator_strength {T : Type} [StringMapPropertied T]
    (field key value : GoString) (that : T) :
    (value ≠ str "__unallocated__" →
        (StringMapProperty.mk field StringMapEquals key value : StringMapProperty T).Matches
            that = true →
        (StringMapProperty.mk field StringMapStartsWith key value : StringMapProperty T).Matches
            that = true
          ∧ (StringMapProperty.mk field StringMapHasKey key value : StringMapProperty T).Matches
            that = true)
      ∧ ((StringMapProperty.mk field StringMapStartsWith key value : StringMapProperty T).Matches
            that = true →
          (StringMapProperty.mk field StringMapHasKey key value : StringMapProperty T).Matches
            that = true) := by
  rcases hres : StringMapPropertied.StringMapProperty that field with ⟨m, _ | err⟩
  · rw [Matches_of_lookup _ that m hres, Matches_of_lookup _ that m hres,
      Matches_of_lookup _ that m hres]
    simp only [if_neg hasKey_ne_startsWith.symm, if_neg equals_ne_startsWith.symm,
      if_neg hasKey_ne_equals.symm, if_true]
    have hself : strings.HasPrefix value value = true :=
      (strings_HasPrefix_iff value value).mpr (List.prefix_refl value)
    have hsentinel : kubecost.UnallocatedSuffix = str "__unallocated__" := rfl
    rcases hidx : GoMap.index m key with ⟨v, present⟩
    constructor
    · intro hvalue
      cases present
      · simp [hsentinel, hvalue]
      · by_cases hv : v = []
        · simp [hv, hsentinel, hvalue]
        · by_cases hvv : v = value
          · subst hvv
            simp [hself]
          · simp [hv, hvv]
    · cases present <;> simp
  · rw [Matches_of_lookup_error _ that err (by rw [hres]),
      Matches_of_lookup_error _ that err (by rw [hres]),
      Matches_of_lookup_error _ that err (by rw [hres])]
    simp

/-- Witness of C17: on `{"app": "frontend"}` the Equals predicate for
`frontend` matches, and so do the StartsWith and HasKey predicates. -/
theorem Matches_operator_strength_witness :
    (StringMapProperty.mk (str "label") StringMapStartsWith (str "app") (str "frontend")
        : StringMapProperty LabelledEntity).Matches
        (LabelledEntity.mk [(str "app", str "frontend")]) = true
      ∧ (StringMapProperty.mk (str "label") StringMapHasKey (str "app") (str "frontend")
        : StringMapProperty LabelledEntity).Matches
        (LabelledEntity.mk [(str "app", str "frontend")]) = true :=
  (Matches_operator_strength (str "label") (str "app") (str "frontend")
    (LabelledEntity.mk [(str "app", str "frontend")])).1 (by decide) (by decide)

/-- C18. `Matches` looks only at the entry for `Key`: two entities whose
lookups of `Field` succeed with maps that agree at `Key` (both lack it, or
both store the same value for it) get the same result, whatever else the two
maps hold. -/
theorem Matches_key_only {T : Type} [StringMapPropertied T]
    (P : StringMapProperty T) (e1 e2 : T) (m1 m2 : GoMap)
    (hlookup1 : StringMapPropertied.StringMapProperty e1 P.Field = (m1, none))
    (hlookup2 : StringMapPropertied.StringMapProperty e2 P.Field = (m2, none))
    (hwf1 : GoMap.WellFormed m1) (hwf2 : GoMap.WellFormed m2)
    (hagree : ((∀ v, (P.Key, v) ∉ m1) ∧ (∀ v, (P.Key, v) ∉ m2))
      ∨ (∃ v, (P.Key, v) ∈ m1 ∧ (P.Key, v) ∈ m2)) :
    P.Matches e1 = P.Matches e2 := by
  have hidx : GoMap.index m1 P.Key = GoMap.index m2 P.Key := by
    rcases hagree with ⟨h1, h2⟩ | ⟨v, h1, h2⟩
    · rw [GoMap_index_of_absent m1 P.Key h1, GoMap_index_of_absent m2 P.Key h2]
    · rw [GoMap_index_of_mem m1 P.Key v hwf1 h1, GoMap_index_of_mem m2 P.Key v hwf2 h2]
  rw [Matches_of_lookup P e1 m1 hlookup1, Matches_of_lookup P e2 m2 hlookup2, hidx]

/-- Witness of C18: two label maps that store `frontend` for `app` and
differ on every other key, and two label maps that both lack `app`. -/
theorem Matches_key_only_witness :
    (labelPredicate StringMapStartsWith (str "app") (str "front")).Matches
        (LabelledEntity.mk [(str "app", str "frontend"), (str "team", str "core")])
      = (labelPredicate StringMapStartsWith (str "app") (str "front")).Matches
        (LabelledEntity.mk [(str "env", str "prod"), (str "app", str "frontend")])
      ∧ (labelPredicate StringMapEquals (str "app") (str "front")).Matches
        (LabelledEntity.mk [(str "team", str "core")])
      = (labelPredicate StringMapEquals (str "app") (str "front")).Matches
        (LabelledEntity.mk []) :=
  ⟨Matches_key_only (labelPredicate StringMapStartsWith (str "app") (str "front"))
      (LabelledEntity.mk [(str "app", str "frontend"), (str "team", str "core")])
      (LabelledEntity.mk [(str "env", str "prod"), (str "app", str "frontend")])
      [(str "app", str "frontend"), (str "team", str "core")]
      [(str "env", str "prod"), (str "app", str "frontend")]
      rfl rfl (by decide) (by decide)
      (Or.inr ⟨str "frontend", by decide, by decide⟩),
   Matches_key_only (labelPredicate StringMapEquals (str "app") (str "front"))
      (LabelledEntity.mk [(str "team", str "core")]) (LabelledEntity.mk [])
      [(str "team", str "core")] [] rfl rfl (by decide) (by decide)
      (Or.inl ⟨fun _ h =>
          (show str "app" ≠ str "team" by decide)
            (congrArg Prod.fst (List.mem_singleton.mp h)),
        fun _ h => List.not_mem_nil _ h⟩)⟩

/-! ## Rendering is not injective -/

/-- C19. The rendering is not injective: the predicates with `Field = a[b`,
`Key = c` and with `Field = a`, `Key = b[c`, the same operator and the same
value, are not structurally equal and have the same rendering. -/
theorem String_not_injective :
    ∃ P Q : StringMapProperty LabelledEntity,
      P.equals (Filter.stringMapProperty Q : Filter LabelledEntity Unit) = false
        ∧ P.String = Q.String
        ∧ P = StringMapProperty.mk (str "a[b") StringMapEquals (str "c") (str "v")
        ∧ Q = StringMapProperty.mk (str "a") StringMapEquals (str "b[c") (str "v") :=
  ⟨StringMapProperty.mk (str "a[b") StringMapEquals (str "c") (str "v"),
   StringMapProperty.mk (str "a") StringMapEquals (str "b[c") (str "v"),
   by decide, by decide, rfl, rfl⟩

end filter
